import Mathlib

/-!
Verification of the lossless batch image merger's canvas-geometry and layout
logic against its two implementations: the server route (`src/app/api/merge/route.ts`,
handler `POST`) and the browser pipeline (`src/app/page.tsx`, `mergeImagesClient`).

Pixel dimensions are embedded as `Nat`; JavaScript numbers appearing in canvas
arithmetic (which may go negative through unvalidated grid parameters) are
embedded as `Int`.  The delegated codec (the `sharp` library and the browser's
image loader), which is not part of this repository's sources, is modelled from
the specification's codec contract; every such definition is marked
"Modelled from the spec".
-/

namespace Merger

/-- Pixel dimensions of a decoded image. -/
structure Dim where
  width : Nat
  height : Nat
deriving Repr, DecidableEq

/-- A source image as uploaded: its stored pixel dimensions plus whether its
embedded EXIF orientation calls for a 90° rotation (axis swap) on decode. -/
structure SrcImage where
  width : Nat
  height : Nat
  exifSwap : Bool
deriving Repr, DecidableEq

/-- Modelled from the spec: decode with orientation normalization (the codec's
auto-rotate per embedded orientation metadata, `sharp(...).rotate()`, external to
src/) — a source whose EXIF orientation swaps axes reports swapped
width/height once rotated. -/
def rotatedDim (s : SrcImage) : Dim :=
  if s.exifSwap then ⟨s.height, s.width⟩ else ⟨s.width, s.height⟩

/-- A source image replaced by its post-rotation reading: orientation already
applied to the stored dimensions and the EXIF flag cleared. -/
def normalizeSrc (s : SrcImage) : SrcImage :=
  ⟨(rotatedDim s).width, (rotatedDim s).height, false⟩

/-- `reduce((sum, img) => sum + img.width, 0)` (route.ts line 119, page.tsx line 154). -/
def sumWidths (dims : List Dim) : Nat :=
  dims.foldl (fun s d => s + d.width) 0

/-- `reduce((sum, img) => sum + img.height, 0)` (route.ts line 123, page.tsx line 158). -/
def sumHeights (dims : List Dim) : Nat :=
  dims.foldl (fun s d => s + d.height) 0

/-- `Math.max(...)` over a list of naturals.  The empty case (where JavaScript
would give `-Infinity`) is unreachable in the route: empty batches are rejected
before any maximum is taken. -/
def maxList (l : List Nat) : Nat :=
  l.foldl max 0

/-- `parseInt(formData.get('gridRows') as string) || 2` (route.ts lines 14–15).
`none` models an absent field or a string whose `parseInt` is `NaN`; a parsed 0
is falsy in JavaScript, so `|| 2` replaces it; any other value passes through. -/
def parseGridParam : Option Int → Int
  | none => 2
  | some v => if v = 0 then 2 else v

/-- JavaScript truthiness of an optional number (`undefined` and `0` are falsy). -/
def jsTruthy : Option Nat → Bool
  | none => false
  | some n => n != 0

/-- Round-half-up division, `Math.round(a / b)` on naturals. -/
def roundDiv (a b : Nat) : Nat :=
  (2 * a + b) / (2 * b)

/-- Modelled from the spec: single-axis fit-inside scale of the delegated codec
(sharp's resize is not in src/): the output width is exactly the target, the
height scales proportionally (rounded, at least 1); with `withoutEnlargement`
set, a target at or above the natural width leaves the image unchanged. -/
def scaleToWidth (d : Dim) (W : Nat) (withoutEnlargement : Bool) : Dim :=
  if withoutEnlargement ∧ d.width ≤ W then d
  else ⟨W, max 1 (roundDiv (d.height * W) d.width)⟩

/-- Modelled from the spec: single-axis fit-inside scale on the height axis,
mirror of `scaleToWidth`. -/
def scaleToHeight (d : Dim) (H : Nat) (withoutEnlargement : Bool) : Dim :=
  if withoutEnlargement ∧ d.height ≤ H then d
  else ⟨max 1 (roundDiv (d.width * H) d.height), H⟩

/-- Modelled from the spec: bounding-box fit-inside of the delegated codec —
scale by the smaller of the two axis ratios (the width axis binds exactly when
`W/w ≤ H/h`, i.e. `W*h ≤ H*w`), preserving aspect ratio. -/
def fitBox (d : Dim) (W H : Nat) (withoutEnlargement : Bool) : Dim :=
  if W * d.height ≤ H * d.width then scaleToWidth d W withoutEnlargement
  else scaleToHeight d H withoutEnlargement

/-- Modelled from the spec: the delegated codec resize call with fit `'inside'`.
The codec rejects non-positive target dimensions (the contract's `ResizeSpec`
fields are positive integers), so those produce an error. -/
def resizeOp (d : Dim) (tw th : Option Int) (withoutEnlargement : Bool) :
    Except Unit Dim :=
  match tw, th with
  | none, none => .ok d
  | some w, none =>
      if w ≤ 0 then .error () else .ok (scaleToWidth d w.toNat withoutEnlargement)
  | none, some h =>
      if h ≤ 0 then .error () else .ok (scaleToHeight d h.toNat withoutEnlargement)
  | some w, some h =>
      if w ≤ 0 ∨ h ≤ 0 then .error ()
      else .ok (fitBox d w.toNat h.toNat withoutEnlargement)

/-- Alignment target computation (route.ts lines 54–62): `alignDimension`
`'width'` sets the target width to the batch maximum width, `'height'` the
target height to the batch maximum height, anything else sets neither. -/
def alignTargets (alignDimension : String) (imageDimensions : List Dim) :
    Option Nat × Option Nat :=
  if alignDimension = "width" then
    (some (maxList (imageDimensions.map Dim.width)), none)
  else if alignDimension = "height" then
    (none, some (maxList (imageDimensions.map Dim.height)))
  else (none, none)

/-- Per-image processing (route.ts lines 66–111): decode with EXIF auto-rotation,
then the resize if-chain — an explicit resize (fields are truthy strings) with
`withoutEnlargement: true` takes the first branch; otherwise a truthy alignment
target resizes with `withoutEnlargement: false`; otherwise the image passes
through.  The result is the dimensions of the processed buffer. -/
def processImage (resizeWidth resizeHeight : Option Int)
    (targetWidth targetHeight : Option Nat) (src : SrcImage) : Except Unit Dim :=
  let d := rotatedDim src
  if resizeWidth.isSome || resizeHeight.isSome then
    resizeOp d resizeWidth resizeHeight true
  else if jsTruthy targetWidth then
    resizeOp d (targetWidth.map fun (n : Nat) => (n : Int)) none false
  else if jsTruthy targetHeight then
    resizeOp d none (targetHeight.map fun (n : Nat) => (n : Int)) false
  else .ok d

/-- Whether the per-image processing issues a codec resize call at all
(the disjunction of the three resize branches of route.ts lines 76–98). -/
def resizeApplied (resizeWidth resizeHeight : Option Int)
    (targetWidth targetHeight : Option Nat) : Bool :=
  resizeWidth.isSome || resizeHeight.isSome || jsTruthy targetWidth ||
    jsTruthy targetHeight

/-- Canvas dimension computation of the server route (route.ts lines 114–129).
Grid parameters flow in unvalidated, hence `Int`; an unrecognized mode leaves
the initial `canvasWidth = canvasHeight = 0`. -/
def canvasSize (alignmentMode : String) (gridRows gridCols : Int)
    (processed : List Dim) : Int × Int :=
  if alignmentMode = "horizontal" then
    ((sumWidths processed : Int), (maxList (processed.map Dim.height) : Int))
  else if alignmentMode = "vertical" then
    ((maxList (processed.map Dim.width) : Int), (sumHeights processed : Int))
  else if alignmentMode = "grid" then
    ((maxList (processed.map Dim.width) : Int) * gridCols,
     (maxList (processed.map Dim.height) : Int) * gridRows)
  else (0, 0)

/-- Horizontal placement loop (route.ts lines 146–155): each image at the
running `xOffset`, top 0, then `xOffset += img.width`. -/
def horizOffsets : Int → List Dim → List (Int × Int)
  | _, [] => []
  | xOffset, d :: rest => (xOffset, 0) :: horizOffsets (xOffset + (d.width : Int)) rest

/-- Vertical placement loop (route.ts lines 156–165): each image at left 0 and
the running `yOffset`, then `yOffset += img.height`. -/
def vertOffsets : Int → List Dim → List (Int × Int)
  | _, [] => []
  | yOffset, d :: rest => (0, yOffset) :: vertOffsets (yOffset + (d.height : Int)) rest

/-- Composite placement offsets of the server route (route.ts lines 146–179).
For grid, `Math.floor(index / gridCols)` is floor division (`Int.fdiv`) and
JavaScript `index % gridCols` agrees with `Int.emod` since the index is
non-negative. -/
def offsets (alignmentMode : String) (gridCols : Int) (processed : List Dim) :
    List (Int × Int) :=
  if alignmentMode = "horizontal" then horizOffsets 0 processed
  else if alignmentMode = "vertical" then vertOffsets 0 processed
  else if alignmentMode = "grid" then
    let cellWidth := maxList (processed.map Dim.width)
    let cellHeight := maxList (processed.map Dim.height)
    (List.range processed.length).map fun (index : Nat) =>
      ((Int.emod (index : Int) gridCols) * (cellWidth : Int),
       (Int.fdiv (index : Int) gridCols) * (cellHeight : Int))
  else []

/-- Modelled from the spec: the delegated codec's canvas creation — a `Canvas`
has positive integer width and height, so a non-positive create size is
rejected (and surfaces through the route's catch-all handler). -/
def createCanvasOk (w h : Int) : Bool :=
  0 < w && 0 < h

/-- Codec operations the route performs, in order: buffer decode/metadata
reads, resize calls, canvas creation, composites, and the final PNG encode. -/
inductive CodecOp where
  | decode (i : Nat)
  | resize (i : Nat)
  | createCanvas (w h : Int)
  | composite (i : Nat) (left top : Int)
  | encode
deriving Repr, DecidableEq

/-- Second processing pass (route.ts lines 64–112): each image is decoded again
(with rotation) and run through the resize chain; the processed dimensions are
collected in order.  A failing codec call fails the pass at that image. -/
def processAll (rw rh : Option Int) (tW tH : Option Nat) :
    Nat → List SrcImage → Except Unit (List Dim) × List CodecOp
  | _, [] => (.ok [], [])
  | i, s :: rest =>
    let ops := CodecOp.decode i ::
      (if resizeApplied rw rh tW tH then [CodecOp.resize i] else [])
    match processImage rw rh tW tH s with
    | .error e => (.error e, ops)
    | .ok d =>
      let restResult := processAll rw rh tW tH (i + 1) rest
      (restResult.1.map (fun ds => d :: ds), ops ++ restResult.2)

/-- Successful merge output: the created canvas size and the composite
placements, one per image in input order. -/
structure MergeOk where
  canvasWidth : Int
  canvasHeight : Int
  placements : List (Int × Int)
deriving Repr, DecidableEq

/-- Error responses of the route: the explicit 400 rejection with its message,
or the catch-all 500 handler wrapping any thrown codec error. -/
inductive MergeError where
  | invalidInput (msg : String)
  | processingFailed
deriving Repr, DecidableEq

/-- The form fields the route reads (route.ts lines 13–25), plus the uploaded
images.  For `gridRowsField`/`gridColsField`, `none` models a field whose
`parseInt` is `NaN` (absent or non-numeric) and `some v` a field parsing to `v`.
For `resizeWidth`/`resizeHeight`, `none` models an absent or empty (falsy)
string and `some v` a non-empty string whose `parseInt` value is `v`. -/
structure MergeRequest where
  alignmentMode : String
  gridRowsField : Option Int
  gridColsField : Option Int
  resizeWidth : Option Int
  resizeHeight : Option Int
  alignDimension : String
  images : List SrcImage
deriving Repr, DecidableEq

/-- The server route handler's pure core (route.ts `POST`, lines 10–202):
parse fields, reject an empty batch, read all dimensions (first pass), compute
alignment targets, process every image, lay out the canvas, create it, and
composite.  Returns the response together with the codec operations performed,
in order. -/
def POST (req : MergeRequest) : Except MergeError MergeOk × List CodecOp :=
  let gridRows := parseGridParam req.gridRowsField
  let gridCols := parseGridParam req.gridColsField
  if req.images.length = 0 then
    (.error (.invalidInput "No images provided"), [])
  else
    let pass1 := (List.range req.images.length).map CodecOp.decode
    let imageDimensions := req.images.map rotatedDim
    let targets := alignTargets req.alignDimension imageDimensions
    let processed := processAll req.resizeWidth req.resizeHeight targets.1 targets.2 0 req.images
    match processed.1 with
    | .error _ => (.error .processingFailed, pass1 ++ processed.2)
    | .ok dims =>
      let canvas := canvasSize req.alignmentMode gridRows gridCols dims
      if createCanvasOk canvas.1 canvas.2 then
        let offs := offsets req.alignmentMode gridCols dims
        (.ok ⟨canvas.1, canvas.2, offs⟩,
         pass1 ++ processed.2 ++ [CodecOp.createCanvas canvas.1 canvas.2]
           ++ offs.enum.map (fun ip => CodecOp.composite ip.1 ip.2.1 ip.2.2)
           ++ [CodecOp.encode])
      else
        (.error .processingFailed,
         pass1 ++ processed.2 ++ [CodecOp.createCanvas canvas.1 canvas.2])

/-- Client-side canvas size computation (page.tsx lines 150–164); the same
formulas over the browser's `img.width`/`img.height`, with the UI's grid
rows/cols (clamped to at least 1 by the form, hence `Nat`). -/
def clientCanvasSize (alignmentMode : String) (gridRows gridCols : Nat)
    (imgs : List Dim) : Nat × Nat :=
  if alignmentMode = "horizontal" then
    (sumWidths imgs, maxList (imgs.map Dim.height))
  else if alignmentMode = "vertical" then
    (maxList (imgs.map Dim.width), sumHeights imgs)
  else if alignmentMode = "grid" then
    (maxList (imgs.map Dim.width) * gridCols,
     maxList (imgs.map Dim.height) * gridRows)
  else (0, 0)

/-- Client-side horizontal draw loop (page.tsx lines 174–179). -/
def clientHorizOffsets : Nat → List Dim → List (Nat × Nat)
  | _, [] => []
  | xOffset, d :: rest => (xOffset, 0) :: clientHorizOffsets (xOffset + d.width) rest

/-- Client-side vertical draw loop (page.tsx lines 180–185). -/
def clientVertOffsets : Nat → List Dim → List (Nat × Nat)
  | _, [] => []
  | yOffset, d :: rest => (0, yOffset) :: clientVertOffsets (yOffset + d.height) rest

/-- Client-side draw offsets (page.tsx lines 174–194). -/
def clientOffsets (alignmentMode : String) (gridCols : Nat) (imgs : List Dim) :
    List (Nat × Nat) :=
  if alignmentMode = "horizontal" then clientHorizOffsets 0 imgs
  else if alignmentMode = "vertical" then clientVertOffsets 0 imgs
  else if alignmentMode = "grid" then
    let cellWidth := maxList (imgs.map Dim.width)
    let cellHeight := maxList (imgs.map Dim.height)
    (List.range imgs.length).map fun index =>
      ((index % gridCols) * cellWidth, (index / gridCols) * cellHeight)
  else []

/-- The no-clipping invariant: every placed image's offset plus its
width/height stays within the computed canvas. -/
def placedInBounds (alignmentMode : String) (gridRows gridCols : Int)
    (processed : List Dim) : Prop :=
  ∀ p ∈ (offsets alignmentMode gridCols processed).zip processed,
    p.1.1 + (p.2.width : Int) ≤ (canvasSize alignmentMode gridRows gridCols processed).1 ∧
    p.1.2 + (p.2.height : Int) ≤ (canvasSize alignmentMode gridRows gridCols processed).2

instance (m : String) (r c : Int) (l : List Dim) : Decidable (placedInBounds m r c l) :=
  inferInstanceAs (Decidable (∀ p ∈ _, _ ∧ _))

/-- Demo batch from the spec's alignment scenario: natural widths 100 and 200. -/
def alignDemoImages : List SrcImage := [⟨100, 80, false⟩, ⟨200, 50, false⟩]

/-- The first demo image, the one the alignment scenario upscales. -/
def alignDemoSrc : SrcImage := ⟨100, 80, false⟩

/-! ### Helper lemmas about the fold-based aggregates -/

theorem foldl_add_width (l : List Dim) :
    ∀ a : Nat, l.foldl (fun s d => s + d.width) a = a + sumWidths l := by
  induction l with
  | nil => intro a; simp [sumWidths]
  | cons d rest ih =>
    intro a
    simp only [List.foldl_cons, sumWidths] at *
    rw [ih (a + d.width), ih (0 + d.width)]
    omega

theorem sumWidths_cons (d : Dim) (l : List Dim) :
    sumWidths (d :: l) = d.width + sumWidths l := by
  show (d :: l).foldl (fun s x => s + x.width) 0 = _
  simp only [List.foldl_cons]
  rw [foldl_add_width]
  omega

theorem foldl_add_height (l : List Dim) :
    ∀ a : Nat, l.foldl (fun s d => s + d.height) a = a + sumHeights l := by
  induction l with
  | nil => intro a; simp [sumHeights]
  | cons d rest ih =>
    intro a
    simp only [List.foldl_cons, sumHeights] at *
    rw [ih (a + d.height), ih (0 + d.height)]
    omega

theorem sumHeights_cons (d : Dim) (l : List Dim) :
    sumHeights (d :: l) = d.height + sumHeights l := by
  show (d :: l).foldl (fun s x => s + x.height) 0 = _
  simp only [List.foldl_cons]
  rw [foldl_add_height]
  omega

theorem sumWidths_eq_sum (l : List Dim) : sumWidths l = (l.map Dim.width).sum := by
  induction l with
  | nil => rfl
  | cons d rest ih => rw [sumWidths_cons, List.map_cons, List.sum_cons, ih]

theorem sumHeights_eq_sum (l : List Dim) : sumHeights l = (l.map Dim.height).sum := by
  induction l with
  | nil => rfl
  | cons d rest ih => rw [sumHeights_cons, List.map_cons, List.sum_cons, ih]

theorem mem_le_sumWidths {d : Dim} {l : List Dim} (hd : d ∈ l) :
    d.width ≤ sumWidths l := by
  induction l with
  | nil => cases hd
  | cons x rest ih =>
    rw [sumWidths_cons]
    rcases List.mem_cons.mp hd with h | h
    · subst h; omega
    · have := ih h; omega

theorem mem_le_sumHeights {d : Dim} {l : List Dim} (hd : d ∈ l) :
    d.height ≤ sumHeights l := by
  induction l with
  | nil => cases hd
  | cons x rest ih =>
    rw [sumHeights_cons]
    rcases List.mem_cons.mp hd with h | h
    · subst h; omega
    · have := ih h; omega

theorem foldl_max_shift (l : List Nat) :
    ∀ a : Nat, l.foldl max a = max a (maxList l) := by
  induction l with
  | nil => intro a; simp [maxList]
  | cons x rest ih =>
    intro a
    simp only [List.foldl_cons, maxList] at *
    rw [ih (max a x), ih (max 0 x)]
    omega

theorem maxList_cons (x : Nat) (l : List Nat) :
    maxList (x :: l) = max x (maxList l) := by
  show (x :: l).foldl max 0 = _
  simp only [List.foldl_cons]
  rw [foldl_max_shift]
  omega

theorem le_maxList {a : Nat} {l : List Nat} (ha : a ∈ l) : a ≤ maxList l := by
  induction l with
  | nil => cases ha
  | cons x rest ih =>
    rw [maxList_cons]
    rcases List.mem_cons.mp ha with h | h
    · subst h; omega
    · have := ih h; omega

theorem maxList_mem {l : List Nat} (hl : l ≠ []) : maxList l ∈ l := by
  induction l with
  | nil => cases hl rfl
  | cons x rest ih =>
    rw [maxList_cons]
    rcases rest.eq_nil_or_concat with h | _
    · subst h
      simp [maxList]
    · rcases Nat.le_total (maxList rest) x with h | h
      · rw [Nat.max_eq_left h]; exact List.mem_cons_self x rest
      · rw [Nat.max_eq_right h]
        rcases rest with _ | ⟨y, ys⟩
        · simp [maxList] at h ⊢
          omega
        · exact List.mem_cons_of_mem x (ih (by simp))

/-! ### Shape lemmas for the layout functions -/

theorem canvasSize_horizontal (r c : Int) (l : List Dim) :
    canvasSize "horizontal" r c l
      = ((sumWidths l : Int), (maxList (l.map Dim.height) : Int)) := rfl

theorem canvasSize_vertical (r c : Int) (l : List Dim) :
    canvasSize "vertical" r c l
      = ((maxList (l.map Dim.width) : Int), (sumHeights l : Int)) := rfl

theorem canvasSize_grid (r c : Int) (l : List Dim) :
    canvasSize "grid" r c l
      = ((maxList (l.map Dim.width) : Int) * c, (maxList (l.map Dim.height) : Int) * r) := rfl

theorem offsets_horizontal (c : Int) (l : List Dim) :
    offsets "horizontal" c l = horizOffsets 0 l := rfl

theorem offsets_vertical (c : Int) (l : List Dim) :
    offsets "vertical" c l = vertOffsets 0 l := rfl

theorem offsets_grid (c : Int) (l : List Dim) :
    offsets "grid" c l
      = (List.range l.length).map (fun (index : Nat) =>
          ((Int.emod (index : Int) c) * (maxList (l.map Dim.width) : Int),
           (Int.fdiv (index : Int) c) * (maxList (l.map Dim.height) : Int))) := rfl

theorem horizOffsets_length (l : List Dim) : ∀ x : Int, (horizOffsets x l).length = l.length := by
  induction l with
  | nil => intro x; rfl
  | cons d rest ih => intro x; simp [horizOffsets, ih]

theorem vertOffsets_length (l : List Dim) : ∀ y : Int, (vertOffsets y l).length = l.length := by
  induction l with
  | nil => intro y; rfl
  | cons d rest ih => intro y; simp [vertOffsets, ih]

theorem horizOffsets_getElem (l : List Dim) :
    ∀ (x : Int) (i : Nat), i < l.length →
      (horizOffsets x l)[i]? = some (x + (sumWidths (l.take i) : Int), 0) := by
  induction l with
  | nil => intro x i hi; simp at hi
  | cons d rest ih =>
    intro x i hi
    cases i with
    | zero =>
      simp [horizOffsets, sumWidths]
    | succ n =>
      have hrec := ih (x + (d.width : Int)) n (by simpa using hi)
      simp only [horizOffsets, List.getElem?_cons_succ, List.take_succ_cons, sumWidths_cons]
      rw [hrec]
      simp only [Option.some.injEq, Prod.mk.injEq]
      refine ⟨by push_cast; ring, trivial⟩

theorem vertOffsets_getElem (l : List Dim) :
    ∀ (y : Int) (i : Nat), i < l.length →
      (vertOffsets y l)[i]? = some (0, y + (sumHeights (l.take i) : Int)) := by
  induction l with
  | nil => intro y i hi; simp at hi
  | cons d rest ih =>
    intro y i hi
    cases i with
    | zero =>
      simp [vertOffsets, sumHeights]
    | succ n =>
      have hrec := ih (y + (d.height : Int)) n (by simpa using hi)
      simp only [vertOffsets, List.getElem?_cons_succ, List.take_succ_cons, sumHeights_cons]
      rw [hrec]
      simp only [Option.some.injEq, Prod.mk.injEq]
      refine ⟨trivial, by push_cast; ring⟩

/-! ### Casts between the server's `Int` grid arithmetic and `Nat` -/

theorem emod_natCast (i c : Nat) : Int.emod (i : Int) (c : Int) = ((i % c : Nat) : Int) := rfl

theorem fdiv_natCast (i c : Nat) : Int.fdiv (i : Int) (c : Int) = ((i / c : Nat) : Int) := by
  cases i with
  | zero => simp [Int.fdiv]
  | succ n => rfl

theorem sumWidths_take_getElem (l : List Dim) :
    ∀ (i : Nat) (hi : i < l.length), sumWidths (l.take i) + l[i].width ≤ sumWidths l := by
  induction l with
  | nil => intro i hi; simp at hi
  | cons d rest ih =>
    intro i hi
    cases i with
    | zero =>
      simp only [List.take_zero, List.getElem_cons_zero, sumWidths_cons]
      have h0 : sumWidths ([] : List Dim) = 0 := rfl
      omega
    | succ n =>
      have h := ih n (by simpa using hi)
      simp only [List.take_succ_cons, List.getElem_cons_succ, sumWidths_cons]
      omega

theorem sumHeights_take_getElem (l : List Dim) :
    ∀ (i : Nat) (hi : i < l.length), sumHeights (l.take i) + l[i].height ≤ sumHeights l := by
  induction l with
  | nil => intro i hi; simp at hi
  | cons d rest ih =>
    intro i hi
    cases i with
    | zero =>
      simp only [List.take_zero, List.getElem_cons_zero, sumHeights_cons]
      have h0 : sumHeights ([] : List Dim) = 0 := rfl
      omega
    | succ n =>
      have h := ih n (by simpa using hi)
      simp only [List.take_succ_cons, List.getElem_cons_succ, sumHeights_cons]
      omega

theorem clientCanvasSize_horizontal (r c : Nat) (l : List Dim) :
    clientCanvasSize "horizontal" r c l = (sumWidths l, maxList (l.map Dim.height)) := rfl

theorem clientCanvasSize_vertical (r c : Nat) (l : List Dim) :
    clientCanvasSize "vertical" r c l = (maxList (l.map Dim.width), sumHeights l) := rfl

theorem clientCanvasSize_grid (r c : Nat) (l : List Dim) :
    clientCanvasSize "grid" r c l
      = (maxList (l.map Dim.width) * c, maxList (l.map Dim.height) * r) := rfl

theorem clientOffsets_horizontal (c : Nat) (l : List Dim) :
    clientOffsets "horizontal" c l = clientHorizOffsets 0 l := rfl

theorem clientOffsets_vertical (c : Nat) (l : List Dim) :
    clientOffsets "vertical" c l = clientVertOffsets 0 l := rfl

theorem clientOffsets_grid (c : Nat) (l : List Dim) :
    clientOffsets "grid" c l
      = (List.range l.length).map (fun index =>
          ((index % c) * maxList (l.map Dim.width),
           (index / c) * maxList (l.map Dim.height))) := rfl

theorem offsets_grid_length (c : Int) (l : List Dim) :
    (offsets "grid" c l).length = l.length := by
  rw [offsets_grid]; simp

theorem offsets_grid_getElem_natCast (cols : Nat) (l : List Dim) (i : Nat)
    (hi : i < l.length) :
    (offsets "grid" (cols : Int) l)[i]? =
      some ((((i % cols) * maxList (l.map Dim.width) : Nat) : Int),
            (((i / cols) * maxList (l.map Dim.height) : Nat) : Int)) := by
  rw [offsets_grid]
  simp only [List.getElem?_map, List.getElem?_range, hi, if_pos, Option.map_some']
  rw [emod_natCast, fdiv_natCast]
  simp only [Option.some.injEq, Prod.mk.injEq]
  constructor <;> (push_cast; ring)

theorem placedInBounds_of_index (m : String) (r c : Int) (l : List Dim)
    (hlen : (offsets m c l).length = l.length)
    (h : ∀ i : Nat, i < l.length → ∀ (off : Int × Int) (d : Dim),
      (offsets m c l)[i]? = some off → l[i]? = some d →
        off.1 + (d.width : Int) ≤ (canvasSize m r c l).1 ∧
        off.2 + (d.height : Int) ≤ (canvasSize m r c l).2) :
    placedInBounds m r c l := by
  intro p hp
  rw [List.mem_iff_getElem] at hp
  obtain ⟨i, hlen2, rfl⟩ := hp
  have hi : i < l.length := by rw [List.length_zip, hlen] at hlen2; omega
  have hoi : i < (offsets m c l).length := by rw [hlen]; exact hi
  rw [List.getElem_zip]
  have hq := h i hi _ _ (List.getElem?_eq_getElem hoi) (List.getElem?_eq_getElem hi)
  dsimp only
  exact hq

/-! ### Claim C1: horizontal layout -/

/-- C1: For every non-empty list of image dimensions merged in `Horizontal` mode,
the computed canvas width is the sum of all image widths, the canvas height is
the maximum of all image heights (an attained upper bound), image `i`'s left
offset is the sum of the widths of images `0..i-1`, and its top offset is 0. -/
theorem horizontal_layout_spec (gridRows gridCols : Int) (dims : List Dim)
    (i : Nat) (hi : i < dims.length) :
    (canvasSize "horizontal" gridRows gridCols dims).1 = ((dims.map Dim.width).sum : Int) ∧
    (∀ d ∈ dims, (d.height : Int) ≤ (canvasSize "horizontal" gridRows gridCols dims).2) ∧
    (∃ d ∈ dims, (d.height : Int) = (canvasSize "horizontal" gridRows gridCols dims).2) ∧
    (offsets "horizontal" gridCols dims)[i]?
      = some ((((dims.take i).map Dim.width).sum : Int), 0) := by
  have hne : dims ≠ [] := by intro h; subst h; simp at hi
  refine ⟨?_, ?_, ?_, ?_⟩
  · rw [canvasSize_horizontal, sumWidths_eq_sum]
  · intro d hd
    rw [canvasSize_horizontal]
    show (d.height : Int) ≤ (maxList (dims.map Dim.height) : Int)
    exact_mod_cast le_maxList (List.mem_map_of_mem Dim.height hd)
  · have hmem : maxList (dims.map Dim.height) ∈ dims.map Dim.height :=
      maxList_mem (by simpa using hne)
    obtain ⟨d, hd, hval⟩ := List.mem_map.mp hmem
    exact ⟨d, hd, by rw [canvasSize_horizontal, hval]⟩
  · rw [offsets_horizontal, horizOffsets_getElem dims 0 i hi, sumWidths_eq_sum]
    simp

/-- C1 witness: the spec's concrete scenario — images 100×50 and 80×60,
horizontal mode — gives canvas 180×60 with the second image at (100, 0). -/
theorem horizontal_layout_spec_witness :
    1 < ([⟨100, 50⟩, ⟨80, 60⟩] : List Dim).length ∧
    ((canvasSize "horizontal" 3 7 [⟨100, 50⟩, ⟨80, 60⟩]).1
        = ((([⟨100, 50⟩, ⟨80, 60⟩] : List Dim).map Dim.width).sum : Int) ∧
     (∀ d ∈ ([⟨100, 50⟩, ⟨80, 60⟩] : List Dim),
        (d.height : Int) ≤ (canvasSize "horizontal" 3 7 [⟨100, 50⟩, ⟨80, 60⟩]).2) ∧
     (∃ d ∈ ([⟨100, 50⟩, ⟨80, 60⟩] : List Dim),
        (d.height : Int) = (canvasSize "horizontal" 3 7 [⟨100, 50⟩, ⟨80, 60⟩]).2) ∧
     (offsets "horizontal" 7 [⟨100, 50⟩, ⟨80, 60⟩])[1]?
        = some ((((([⟨100, 50⟩, ⟨80, 60⟩] : List Dim).take 1).map Dim.width).sum : Int), 0)) :=
  ⟨by decide, horizontal_layout_spec 3 7 [⟨100, 50⟩, ⟨80, 60⟩] 1 (by decide)⟩

/-! ### Claim C2: grid layout -/

/-- C2: In `Grid` mode with `rows`/`cols`, the cell width is the maximum image
width of the batch and the cell height the maximum image height (attained upper
bounds), the canvas is `cellWidth*cols` by `cellHeight*rows`, and image `i` is
placed row-major at left `(i mod cols) * cellWidth`, top `(i div cols) *
cellHeight` with integer division. -/
theorem grid_layout_spec (rows cols : Nat) (dims : List Dim)
    (i : Nat) (hi : i < dims.length) :
    (canvasSize "grid" (rows : Int) (cols : Int) dims).1
        = ((maxList (dims.map Dim.width) * cols : Nat) : Int) ∧
    (canvasSize "grid" (rows : Int) (cols : Int) dims).2
        = ((maxList (dims.map Dim.height) * rows : Nat) : Int) ∧
    (∀ d ∈ dims, d.width ≤ maxList (dims.map Dim.width) ∧
                 d.height ≤ maxList (dims.map Dim.height)) ∧
    (∃ d ∈ dims, d.width = maxList (dims.map Dim.width)) ∧
    (∃ d ∈ dims, d.height = maxList (dims.map Dim.height)) ∧
    (offsets "grid" (cols : Int) dims)[i]?
        = some ((((i % cols) * maxList (dims.map Dim.width) : Nat) : Int),
                (((i / cols) * maxList (dims.map Dim.height) : Nat) : Int)) := by
  have hne : dims ≠ [] := by intro h; subst h; simp at hi
  refine ⟨?_, ?_, ?_, ?_, ?_, ?_⟩
  · rw [canvasSize_grid]; push_cast; ring
  · rw [canvasSize_grid]; push_cast; ring
  · intro d hd
    exact ⟨le_maxList (List.mem_map_of_mem Dim.width hd),
           le_maxList (List.mem_map_of_mem Dim.height hd)⟩
  · obtain ⟨d, hd, hval⟩ :=
      List.mem_map.mp (maxList_mem (l := dims.map Dim.width) (by simpa using hne))
    exact ⟨d, hd, hval⟩
  · obtain ⟨d, hd, hval⟩ :=
      List.mem_map.mp (maxList_mem (l := dims.map Dim.height) (by simpa using hne))
    exact ⟨d, hd, hval⟩
  · exact offsets_grid_getElem_natCast cols dims i hi

/-- C2 witness: the spec's concrete scenario — three 40×40 images in a 2×2
grid: canvas 80×80 and image 2 at (0, 40). -/
theorem grid_layout_spec_witness :
    2 < ([⟨40, 40⟩, ⟨40, 40⟩, ⟨40, 40⟩] : List Dim).length ∧
    ((canvasSize "grid" (2 : Nat) (2 : Nat) [⟨40, 40⟩, ⟨40, 40⟩, ⟨40, 40⟩]).1
        = ((maxList (([⟨40, 40⟩, ⟨40, 40⟩, ⟨40, 40⟩] : List Dim).map Dim.width) * 2 : Nat) : Int) ∧
     (canvasSize "grid" (2 : Nat) (2 : Nat) [⟨40, 40⟩, ⟨40, 40⟩, ⟨40, 40⟩]).2
        = ((maxList (([⟨40, 40⟩, ⟨40, 40⟩, ⟨40, 40⟩] : List Dim).map Dim.height) * 2 : Nat) : Int) ∧
     (∀ d ∈ ([⟨40, 40⟩, ⟨40, 40⟩, ⟨40, 40⟩] : List Dim),
        d.width ≤ maxList (([⟨40, 40⟩, ⟨40, 40⟩, ⟨40, 40⟩] : List Dim).map Dim.width) ∧
        d.height ≤ maxList (([⟨40, 40⟩, ⟨40, 40⟩, ⟨40, 40⟩] : List Dim).map Dim.height)) ∧
     (∃ d ∈ ([⟨40, 40⟩, ⟨40, 40⟩, ⟨40, 40⟩] : List Dim),
        d.width = maxList (([⟨40, 40⟩, ⟨40, 40⟩, ⟨40, 40⟩] : List Dim).map Dim.width)) ∧
     (∃ d ∈ ([⟨40, 40⟩, ⟨40, 40⟩, ⟨40, 40⟩] : List Dim),
        d.height = maxList (([⟨40, 40⟩, ⟨40, 40⟩, ⟨40, 40⟩] : List Dim).map Dim.height)) ∧
     (offsets "grid" ((2 : Nat) : Int) [⟨40, 40⟩, ⟨40, 40⟩, ⟨40, 40⟩])[2]?
        = some ((((2 % 2) * maxList (([⟨40, 40⟩, ⟨40, 40⟩, ⟨40, 40⟩] : List Dim).map Dim.width) : Nat) : Int),
                (((2 / 2) * maxList (([⟨40, 40⟩, ⟨40, 40⟩, ⟨40, 40⟩] : List Dim).map Dim.height) : Nat) : Int))) :=
  ⟨by decide, grid_layout_spec 2 2 [⟨40, 40⟩, ⟨40, 40⟩, ⟨40, 40⟩] 2 (by decide)⟩

/-! ### Claim C3: placements stay within the canvas -/

/-- C3 counterexample: the unrestricted claim fails in grid mode when the batch
exceeds `rows*cols` — two 10×10 images in a 1×1 grid give a 10×10 canvas but
place image 1 at top 10, so its bottom edge reaches 20 > 10. -/
theorem no_clipping_cex : ¬ placedInBounds "grid" 1 1 [⟨10, 10⟩, ⟨10, 10⟩] := by
  decide

/-- C3 (amended): every placement stays within the computed canvas in
horizontal and in vertical mode; in grid mode the same holds provided the
image count does not exceed `rows * cols` (with positive `cols`) — the
unrestricted grid statement is refuted by the counterexample. -/
theorem no_clipping_amended (gridRows gridCols : Int) (rows cols : Nat)
    (dims : List Dim) (hcols : 0 < cols) (hcount : dims.length ≤ rows * cols) :
    placedInBounds "horizontal" gridRows gridCols dims ∧
    placedInBounds "vertical" gridRows gridCols dims ∧
    placedInBounds "grid" (rows : Int) (cols : Int) dims := by
  refine ⟨?_, ?_, ?_⟩
  · refine placedInBounds_of_index _ _ _ _ (by rw [offsets_horizontal, horizOffsets_length]) ?_
    intro i hi off d hoff hd
    rw [offsets_horizontal, horizOffsets_getElem dims 0 i hi] at hoff
    rw [List.getElem?_eq_getElem hi] at hd
    obtain rfl := Option.some.inj hoff
    obtain rfl := Option.some.inj hd
    rw [canvasSize_horizontal]
    have h2 := sumWidths_take_getElem dims i hi
    have h3 : dims[i].height ≤ maxList (dims.map Dim.height) :=
      le_maxList (List.mem_map_of_mem Dim.height (dims.getElem_mem hi))
    constructor
    · dsimp only; omega
    · dsimp only; omega
  · refine placedInBounds_of_index _ _ _ _ (by rw [offsets_vertical, vertOffsets_length]) ?_
    intro i hi off d hoff hd
    rw [offsets_vertical, vertOffsets_getElem dims 0 i hi] at hoff
    rw [List.getElem?_eq_getElem hi] at hd
    obtain rfl := Option.some.inj hoff
    obtain rfl := Option.some.inj hd
    rw [canvasSize_vertical]
    have h2 := sumHeights_take_getElem dims i hi
    have h3 : dims[i].width ≤ maxList (dims.map Dim.width) :=
      le_maxList (List.mem_map_of_mem Dim.width (dims.getElem_mem hi))
    constructor
    · dsimp only; omega
    · dsimp only; omega
  · refine placedInBounds_of_index _ _ _ _ (offsets_grid_length _ _) ?_
    intro i hi off d hoff hd
    rw [offsets_grid_getElem_natCast cols dims i hi] at hoff
    rw [List.getElem?_eq_getElem hi] at hd
    obtain rfl := Option.some.inj hoff
    obtain rfl := Option.some.inj hd
    rw [canvasSize_grid]
    have hw : dims[i].width ≤ maxList (dims.map Dim.width) :=
      le_maxList (List.mem_map_of_mem Dim.width (dims.getElem_mem hi))
    have hh : dims[i].height ≤ maxList (dims.map Dim.height) :=
      le_maxList (List.mem_map_of_mem Dim.height (dims.getElem_mem hi))
    have hmod : i % cols + 1 ≤ cols := Nat.mod_lt i hcols
    have hdiv : i / cols + 1 ≤ rows :=
      (Nat.div_lt_iff_lt_mul hcols).mpr (Nat.lt_of_lt_of_le hi hcount)
    constructor
    · dsimp only
      have hN : (i % cols) * maxList (dims.map Dim.width) + dims[i].width
          ≤ maxList (dims.map Dim.width) * cols := by
        calc (i % cols) * maxList (dims.map Dim.width) + dims[i].width
            ≤ (i % cols) * maxList (dims.map Dim.width) + maxList (dims.map Dim.width) := by
              omega
          _ = (i % cols + 1) * maxList (dims.map Dim.width) := by ring
          _ ≤ cols * maxList (dims.map Dim.width) := Nat.mul_le_mul_right _ hmod
          _ = maxList (dims.map Dim.width) * cols := Nat.mul_comm _ _
      exact_mod_cast hN
    · dsimp only
      have hN : (i / cols) * maxList (dims.map Dim.height) + dims[i].height
          ≤ maxList (dims.map Dim.height) * rows := by
        calc (i / cols) * maxList (dims.map Dim.height) + dims[i].height
            ≤ (i / cols) * maxList (dims.map Dim.height) + maxList (dims.map Dim.height) := by
              omega
          _ = (i / cols + 1) * maxList (dims.map Dim.height) := by ring
          _ ≤ rows * maxList (dims.map Dim.height) := Nat.mul_le_mul_right _ hdiv
          _ = maxList (dims.map Dim.height) * rows := Nat.mul_comm _ _
      exact_mod_cast hN

/-- C3 witness: two images 100×50 and 80×60 in a 2×2 grid (count 2 ≤ 4) stay
in bounds in all three modes. -/
theorem no_clipping_amended_witness :
    0 < 2 ∧ ([⟨100, 50⟩, ⟨80, 60⟩] : List Dim).length ≤ 2 * 2 ∧
    (placedInBounds "horizontal" 5 9 [⟨100, 50⟩, ⟨80, 60⟩] ∧
     placedInBounds "vertical" 5 9 [⟨100, 50⟩, ⟨80, 60⟩] ∧
     placedInBounds "grid" ((2 : Nat) : Int) ((2 : Nat) : Int) [⟨100, 50⟩, ⟨80, 60⟩]) :=
  ⟨by decide, by decide,
   no_clipping_amended 5 9 2 2 [⟨100, 50⟩, ⟨80, 60⟩] (by decide) (by decide)⟩

/-! ### Claim C4: the browser and server layout pipelines agree -/

theorem horizOffsets_eq_client (l : List Dim) : ∀ x : Nat,
    horizOffsets (x : Int) l
      = (clientHorizOffsets x l).map (fun p => ((p.1 : Int), (p.2 : Int))) := by
  induction l with
  | nil => intro x; rfl
  | cons d rest ih =>
    intro x
    have hx : (x : Int) + (d.width : Int) = ((x + d.width : Nat) : Int) := by
      push_cast; ring
    simp only [horizOffsets, clientHorizOffsets, List.map_cons, hx, ih (x + d.width)]
    norm_num

theorem vertOffsets_eq_client (l : List Dim) : ∀ y : Nat,
    vertOffsets (y : Int) l
      = (clientVertOffsets y l).map (fun p => ((p.1 : Int), (p.2 : Int))) := by
  induction l with
  | nil => intro y; rfl
  | cons d rest ih =>
    intro y
    have hy : (y : Int) + (d.height : Int) = ((y + d.height : Nat) : Int) := by
      push_cast; ring
    simp only [vertOffsets, clientVertOffsets, List.map_cons, hy, ih (y + d.height)]
    norm_num

/-- C4: For every list of image dimensions, every alignment-mode string, and the
same grid rows/cols, the canvas size and the per-image offsets computed by the
browser-side pipeline (`mergeImagesClient`) coincide with those computed by the
server-side pipeline (the route's layout code), up to the embedding of the
browser's non-negative numbers into the server's integers. -/
theorem client_server_agree (mode : String) (rows cols : Nat) (dims : List Dim) :
    canvasSize mode (rows : Int) (cols : Int) dims
      = (((clientCanvasSize mode rows cols dims).1 : Int),
         ((clientCanvasSize mode rows cols dims).2 : Int)) ∧
    offsets mode (cols : Int) dims
      = (clientOffsets mode cols dims).map (fun p => ((p.1 : Int), (p.2 : Int))) := by
  constructor
  · by_cases h1 : mode = "horizontal"
    · subst h1; rfl
    · by_cases h2 : mode = "vertical"
      · subst h2; rfl
      · by_cases h3 : mode = "grid"
        · subst h3
          rw [canvasSize_grid, clientCanvasSize_grid]
          simp only [Prod.mk.injEq]
          constructor <;> (push_cast; ring)
        · simp [canvasSize, clientCanvasSize, h1, h2, h3]
  · by_cases h1 : mode = "horizontal"
    · subst h1
      rw [offsets_horizontal, clientOffsets_horizontal]
      exact_mod_cast horizOffsets_eq_client dims 0
    · by_cases h2 : mode = "vertical"
      · subst h2
        rw [offsets_vertical, clientOffsets_vertical]
        exact_mod_cast vertOffsets_eq_client dims 0
      · by_cases h3 : mode = "grid"
        · subst h3
          rw [offsets_grid, clientOffsets_grid, List.map_map]
          apply List.map_congr_left
          intro j hj
          simp only [Function.comp_apply]
          rw [emod_natCast, fdiv_natCast]
          simp only [Prod.mk.injEq]
          constructor <;> (push_cast; ring)
        · simp [offsets, clientOffsets, h1, h2, h3]

/-! ### Rounding lemmas for the modelled fit-inside resize -/

theorem roundDiv_le (h W w : Nat) (hW : W ≤ w) (hw : 0 < w) :
    roundDiv (h * W) w ≤ h := by
  have h1 : h * W ≤ h * w := Nat.mul_le_mul_left h hW
  have h3 : roundDiv (h * W) w ≤ (2 * (h * w) + w) / (2 * w) :=
    Nat.div_le_div_right (by omega)
  have h4 : (2 * (h * w) + w) / (2 * w) = h := by
    have he : 2 * (h * w) + w = (2 * h + 1) * w := by ring
    have he2 : 2 * w = 2 * w := rfl
    rw [he, show (2 : Nat) * w = 2 * w from rfl]
    calc (2 * h + 1) * w / (2 * w) = (2 * h + 1) / 2 := Nat.mul_div_mul_right _ _ hw
      _ = h := by omega
  omega

theorem round_close (a w : Nat) (hw : 0 < w) :
    ((max 1 (roundDiv a w) : Nat) : Int) * w - a ≤ w ∧
    -(w : Int) ≤ ((max 1 (roundDiv a w) : Nat) : Int) * w - a := by
  have hdm := Nat.div_add_mod (2 * a + w) (2 * w)
  have hlt : (2 * a + w) % (2 * w) < 2 * w := Nat.mod_lt _ (by omega)
  rcases Nat.eq_zero_or_pos (roundDiv a w) with h0 | hpos
  · have hsmall : 2 * a + w < 2 * w := by
      have := (Nat.div_eq_zero_iff (by omega : 0 < 2 * w)).mp h0
      exact this
    rw [h0]
    constructor <;> (simp only [Nat.max_eq_left (by omega : (0 : Nat) ≤ 1)]; push_cast; omega)
  · rw [Nat.max_eq_right hpos]
    have hdmZ : (2 * w : Int) * ((roundDiv a w : Nat) : Int)
        + ((2 * a + w) % (2 * w) : Nat) = 2 * a + w := by
      exact_mod_cast hdm
    have hltZ : (((2 * a + w) % (2 * w) : Nat) : Int) < 2 * w := by exact_mod_cast hlt
    have hge : (0 : Int) ≤ (((2 * a + w) % (2 * w) : Nat) : Int) := Int.natCast_nonneg _
    constructor <;> nlinarith [hdmZ, hltZ, hge]

theorem scaleToWidth_id (d : Dim) (W : Nat) (hle : d.width ≤ W) :
    scaleToWidth d W true = d := by
  unfold scaleToWidth
  rw [if_pos ⟨rfl, hle⟩]

theorem scaleToHeight_id (d : Dim) (H : Nat) (hle : d.height ≤ H) :
    scaleToHeight d H true = d := by
  unfold scaleToHeight
  rw [if_pos ⟨rfl, hle⟩]

theorem scaleToWidth_noEnlarge (d : Dim) (W : Nat)
    (hw : 0 < d.width) (hh : 0 < d.height) :
    (scaleToWidth d W true).width ≤ d.width ∧
    (scaleToWidth d W true).height ≤ d.height := by
  unfold scaleToWidth
  by_cases hc : d.width ≤ W
  · rw [if_pos ⟨rfl, hc⟩]
    exact ⟨Nat.le_refl _, Nat.le_refl _⟩
  · rw [if_neg (by intro hx; exact hc hx.2)]
    refine ⟨by dsimp; omega, ?_⟩
    dsimp
    have hr := roundDiv_le d.height W d.width (by omega) hw
    omega

theorem scaleToHeight_noEnlarge (d : Dim) (H : Nat)
    (hw : 0 < d.width) (hh : 0 < d.height) :
    (scaleToHeight d H true).width ≤ d.width ∧
    (scaleToHeight d H true).height ≤ d.height := by
  unfold scaleToHeight
  by_cases hc : d.height ≤ H
  · rw [if_pos ⟨rfl, hc⟩]
    exact ⟨Nat.le_refl _, Nat.le_refl _⟩
  · rw [if_neg (by intro hx; exact hc hx.2)]
    refine ⟨?_, by dsimp; omega⟩
    dsimp
    have hr := roundDiv_le d.width H d.height (by omega) hh
    omega

/-! ### Claim C5: explicit resize — precedence, fit-inside, no enlargement -/

/-- C5: When an explicit resize field is present, the alignment override is
ignored (the explicit resize takes precedence); the processed result never
exceeds the natural (post-rotation) dimensions (enlargement disallowed); and
when every given axis target is at least the natural size, the result equals
the natural dimensions unchanged. -/
theorem explicit_resize_spec (rw rh : Option Int) (s : SrcImage)
    (hp : rw.isSome ∨ rh.isSome)
    (hw : 0 < (rotatedDim s).width) (hh : 0 < (rotatedDim s).height) :
    (∀ tW tH tW2 tH2 : Option Nat,
        processImage rw rh tW tH s = processImage rw rh tW2 tH2 s) ∧
    ((∀ w : Int, rw = some w → ((rotatedDim s).width : Int) ≤ w) →
     (∀ h : Int, rh = some h → ((rotatedDim s).height : Int) ≤ h) →
        processImage rw rh none none s = .ok (rotatedDim s)) ∧
    (∀ r : Dim, processImage rw rh none none s = .ok r →
        r.width ≤ (rotatedDim s).width ∧ r.height ≤ (rotatedDim s).height) := by
  have hb : (rw.isSome || rh.isSome) = true := by
    rcases hp with h | h <;> simp [h]
  refine ⟨?_, ?_, ?_⟩
  · intro tW tH tW2 tH2
    simp only [processImage, hb, if_true]
  · intro hbw hbh
    simp only [processImage, hb, if_true]
    match hrw : rw, hrh : rh with
    | none, none => simp at hb
    | some w, none =>
      have h1 : ((rotatedDim s).width : Int) ≤ w := hbw w rfl
      have h2 : ¬ w ≤ 0 := by omega
      simp only [resizeOp, h2, if_neg, ite_false]
      rw [scaleToWidth_id _ _ ((Int.le_toNat (by omega)).mpr h1)]
    | none, some h =>
      have h1 : ((rotatedDim s).height : Int) ≤ h := hbh h rfl
      have h2 : ¬ h ≤ 0 := by omega
      simp only [resizeOp, h2, if_neg, ite_false]
      rw [scaleToHeight_id _ _ ((Int.le_toNat (by omega)).mpr h1)]
    | some w, some h =>
      have h1 : ((rotatedDim s).width : Int) ≤ w := hbw w rfl
      have h1h : ((rotatedDim s).height : Int) ≤ h := hbh h rfl
      have h2 : ¬ (w ≤ 0 ∨ h ≤ 0) := by omega
      simp only [resizeOp, h2, if_neg, ite_false]
      unfold fitBox
      by_cases hfit : w.toNat * (rotatedDim s).height ≤ h.toNat * (rotatedDim s).width
      · rw [if_pos hfit, scaleToWidth_id _ _ ((Int.le_toNat (by omega)).mpr h1)]
      · rw [if_neg hfit, scaleToHeight_id _ _ ((Int.le_toNat (by omega)).mpr h1h)]
  · intro r hr
    simp only [processImage, hb, if_true] at hr
    match hrw : rw, hrh : rh with
    | none, none => simp at hb
    | some w, none =>
      by_cases h2 : w ≤ 0
      · simp [resizeOp, h2] at hr
      · simp only [resizeOp, h2, ite_false] at hr
        obtain rfl := Except.ok.inj hr
        exact scaleToWidth_noEnlarge _ _ hw hh
    | none, some h =>
      by_cases h2 : h ≤ 0
      · simp [resizeOp, h2] at hr
      · simp only [resizeOp, h2, ite_false] at hr
        obtain rfl := Except.ok.inj hr
        exact scaleToHeight_noEnlarge _ _ hw hh
    | some w, some h =>
      by_cases h2 : w ≤ 0 ∨ h ≤ 0
      · simp [resizeOp, h2] at hr
      · simp only [resizeOp, h2, ite_false] at hr
        obtain rfl := Except.ok.inj hr
        unfold fitBox
        by_cases hfit : w.toNat * (rotatedDim s).height ≤ h.toNat * (rotatedDim s).width
        · rw [if_pos hfit]; exact scaleToWidth_noEnlarge _ _ hw hh
        · rw [if_neg hfit]; exact scaleToHeight_noEnlarge _ _ hw hh

/-- C5 witness: a 100×40 image with explicit resize box 500×700 (larger than
natural on both axes): the alignment override is ignored and the result is the
natural size unchanged. -/
theorem explicit_resize_spec_witness :
    ((some 500 : Option Int).isSome ∨ (some 700 : Option Int).isSome) ∧
    0 < (rotatedDim ⟨100, 40, false⟩).width ∧ 0 < (rotatedDim ⟨100, 40, false⟩).height ∧
    ((∀ tW tH tW2 tH2 : Option Nat,
        processImage (some 500) (some 700) tW tH ⟨100, 40, false⟩
          = processImage (some 500) (some 700) tW2 tH2 ⟨100, 40, false⟩) ∧
     ((∀ w : Int, (some 500 : Option Int) = some w →
          ((rotatedDim ⟨100, 40, false⟩).width : Int) ≤ w) →
      (∀ h : Int, (some 700 : Option Int) = some h →
          ((rotatedDim ⟨100, 40, false⟩).height : Int) ≤ h) →
        processImage (some 500) (some 700) none none ⟨100, 40, false⟩
          = .ok (rotatedDim ⟨100, 40, false⟩)) ∧
     (∀ r : Dim, processImage (some 500) (some 700) none none ⟨100, 40, false⟩ = .ok r →
        r.width ≤ (rotatedDim ⟨100, 40, false⟩).width ∧
        r.height ≤ (rotatedDim ⟨100, 40, false⟩).height)) :=
  ⟨by decide, by decide, by decide,
   explicit_resize_spec (some 500) (some 700) ⟨100, 40, false⟩
     (by decide) (by decide) (by decide)⟩

/-! ### Claim C6: alignment resize to the batch maximum -/

theorem alignTargets_width (l : List Dim) :
    alignTargets "width" l = (some (maxList (l.map Dim.width)), none) := rfl

theorem alignTargets_height (l : List Dim) :
    alignTargets "height" l = (none, some (maxList (l.map Dim.height))) := rfl

theorem processImage_alignW (tW : Nat) (s : SrcImage) (htW : 0 < tW) :
    processImage none none (some tW) none s
      = .ok ⟨tW, max 1 (roundDiv ((rotatedDim s).height * tW) (rotatedDim s).width)⟩ := by
  have hjs : jsTruthy (some tW) = true := by simp [jsTruthy]; omega
  have hneg : ¬ ((tW : Int) ≤ 0) := by
    have : (0 : Int) < tW := by exact_mod_cast htW
    omega
  unfold processImage
  rw [if_neg (by simp)]
  rw [if_pos hjs]
  simp only [Option.map_some']
  simp only [resizeOp]
  rw [if_neg hneg, Int.toNat_natCast]
  unfold scaleToWidth
  rw [if_neg (by simp)]

theorem processImage_alignH (tH : Nat) (s : SrcImage) (htH : 0 < tH) :
    processImage none none none (some tH) s
      = .ok ⟨max 1 (roundDiv ((rotatedDim s).width * tH) (rotatedDim s).height), tH⟩ := by
  have hjs : jsTruthy (some tH) = true := by simp [jsTruthy]; omega
  have hneg : ¬ ((tH : Int) ≤ 0) := by
    have : (0 : Int) < tH := by exact_mod_cast htH
    omega
  unfold processImage
  rw [if_neg (by simp)]
  rw [if_neg (by simp [jsTruthy])]
  rw [if_pos hjs]
  simp only [Option.map_some']
  simp only [resizeOp]
  rw [if_neg hneg, Int.toNat_natCast]
  unfold scaleToHeight
  rw [if_neg (by simp)]

/-- C6: With alignment directive `width` and no explicit resize, the target
width is the maximum natural (post-rotation) width of the batch; every batch
member is resized to exactly that width (enlargement permitted), and the
resized height-to-width ratio matches the natural ratio within a rounding
error of at most one pixel — symmetrically for directive `height`. -/
theorem align_resize_spec (images : List SrcImage) (s : SrcImage) (hs : s ∈ images)
    (hpos : ∀ t ∈ images, 0 < (rotatedDim t).width ∧ 0 < (rotatedDim t).height) :
    (alignTargets "width" (images.map rotatedDim)
        = (some (maxList ((images.map rotatedDim).map Dim.width)), none) ∧
     ∃ r : Dim,
       processImage none none
           (alignTargets "width" (images.map rotatedDim)).1
           (alignTargets "width" (images.map rotatedDim)).2 s = .ok r ∧
       r.width = maxList ((images.map rotatedDim).map Dim.width) ∧
       (r.height : Int) * (rotatedDim s).width
           - (rotatedDim s).height * r.width ≤ (rotatedDim s).width ∧
       -((rotatedDim s).width : Int)
           ≤ (r.height : Int) * (rotatedDim s).width - (rotatedDim s).height * r.width) ∧
    (alignTargets "height" (images.map rotatedDim)
        = (none, some (maxList ((images.map rotatedDim).map Dim.height))) ∧
     ∃ r : Dim,
       processImage none none
           (alignTargets "height" (images.map rotatedDim)).1
           (alignTargets "height" (images.map rotatedDim)).2 s = .ok r ∧
       r.height = maxList ((images.map rotatedDim).map Dim.height) ∧
       (r.width : Int) * (rotatedDim s).height
           - (rotatedDim s).width * r.height ≤ (rotatedDim s).height ∧
       -((rotatedDim s).height : Int)
           ≤ (r.width : Int) * (rotatedDim s).height - (rotatedDim s).width * r.height) := by
  have hw := (hpos s hs).1
  have hh := (hpos s hs).2
  constructor
  · refine ⟨rfl, ?_⟩
    have hle : (rotatedDim s).width ≤ maxList ((images.map rotatedDim).map Dim.width) :=
      le_maxList (List.mem_map_of_mem Dim.width (List.mem_map_of_mem rotatedDim hs))
    have hmax : 0 < maxList ((images.map rotatedDim).map Dim.width) := by omega
    rw [alignTargets_width]
    refine ⟨_, processImage_alignW _ s hmax, rfl, ?_, ?_⟩
    · have hrc := (round_close ((rotatedDim s).height
          * maxList ((images.map rotatedDim).map Dim.width)) (rotatedDim s).width hw).1
      dsimp only
      push_cast at hrc ⊢
      linarith
    · have hrc := (round_close ((rotatedDim s).height
          * maxList ((images.map rotatedDim).map Dim.width)) (rotatedDim s).width hw).2
      dsimp only
      push_cast at hrc ⊢
      linarith
  · refine ⟨rfl, ?_⟩
    have hle : (rotatedDim s).height ≤ maxList ((images.map rotatedDim).map Dim.height) :=
      le_maxList (List.mem_map_of_mem Dim.height (List.mem_map_of_mem rotatedDim hs))
    have hmax : 0 < maxList ((images.map rotatedDim).map Dim.height) := by omega
    rw [alignTargets_height]
    refine ⟨_, processImage_alignH _ s hmax, rfl, ?_, ?_⟩
    · have hrc := (round_close ((rotatedDim s).width
          * maxList ((images.map rotatedDim).map Dim.height)) (rotatedDim s).height hh).1
      dsimp only
      push_cast at hrc ⊢
      linarith
    · have hrc := (round_close ((rotatedDim s).width
          * maxList ((images.map rotatedDim).map Dim.height)) (rotatedDim s).height hh).2
      dsimp only
      push_cast at hrc ⊢
      linarith

/-- C6 witness: the spec's scenario — widths 100 and 200 under `width`
alignment: both targets equal 200, the 100×80 image upscales to width 200 with
its aspect preserved within one pixel. -/
theorem align_resize_spec_witness :
    alignDemoSrc ∈ alignDemoImages ∧
    (∀ t ∈ alignDemoImages, 0 < (rotatedDim t).width ∧ 0 < (rotatedDim t).height) ∧
    ((alignTargets "width" (alignDemoImages.map rotatedDim)
        = (some (maxList ((alignDemoImages.map rotatedDim).map Dim.width)), none) ∧
      ∃ r : Dim,
        processImage none none
            (alignTargets "width" (alignDemoImages.map rotatedDim)).1
            (alignTargets "width" (alignDemoImages.map rotatedDim)).2 alignDemoSrc = .ok r ∧
        r.width = maxList ((alignDemoImages.map rotatedDim).map Dim.width) ∧
        (r.height : Int) * (rotatedDim alignDemoSrc).width
            - (rotatedDim alignDemoSrc).height * r.width ≤ (rotatedDim alignDemoSrc).width ∧
        -((rotatedDim alignDemoSrc).width : Int)
            ≤ (r.height : Int) * (rotatedDim alignDemoSrc).width
              - (rotatedDim alignDemoSrc).height * r.width) ∧
     (alignTargets "height" (alignDemoImages.map rotatedDim)
        = (none, some (maxList ((alignDemoImages.map rotatedDim).map Dim.height))) ∧
      ∃ r : Dim,
        processImage none none
            (alignTargets "height" (alignDemoImages.map rotatedDim)).1
            (alignTargets "height" (alignDemoImages.map rotatedDim)).2 alignDemoSrc = .ok r ∧
        r.height = maxList ((alignDemoImages.map rotatedDim).map Dim.height) ∧
        (r.width : Int) * (rotatedDim alignDemoSrc).height
            - (rotatedDim alignDemoSrc).width * r.height ≤ (rotatedDim alignDemoSrc).height ∧
        -((rotatedDim alignDemoSrc).height : Int)
            ≤ (r.width : Int) * (rotatedDim alignDemoSrc).height
              - (rotatedDim alignDemoSrc).width * r.height)) :=
  ⟨by decide, by decide,
   align_resize_spec alignDemoImages alignDemoSrc (by decide) (by decide)⟩

/-! ### Pipeline lemmas -/

theorem processImage_err (rw rh : Option Int) (tW tH : Option Nat) (s : SrcImage)
    (hbad : (∃ w, rw = some w ∧ w ≤ 0) ∨ (∃ h, rh = some h ∧ h ≤ 0)) :
    processImage rw rh tW tH s = .error () := by
  rcases hbad with ⟨w, hw, hle⟩ | ⟨h, hh, hle⟩
  · subst hw
    unfold processImage
    rw [if_pos (by simp)]
    cases rh with
    | none => simp [resizeOp, hle]
    | some h2 => simp [resizeOp, hle]
  · subst hh
    unfold processImage
    rw [if_pos (by simp)]
    cases rw with
    | none => simp [resizeOp, hle]
    | some w2 => simp [resizeOp, hle]

theorem processImage_ok_noExplicit (tW tH : Option Nat) (s : SrcImage) :
    ∃ d, processImage none none tW tH s = .ok d := by
  unfold processImage
  rw [if_neg (by simp)]
  by_cases h1 : jsTruthy tW = true
  · rw [if_pos h1]
    cases tW with
    | none => simp [jsTruthy] at h1
    | some n =>
      have hn : n ≠ 0 := by simpa [jsTruthy] using h1
      simp only [Option.map_some']
      simp only [resizeOp]
      rw [if_neg (by exact_mod_cast by omega : ¬ ((n : Int) ≤ 0))]
      exact ⟨_, rfl⟩
  · rw [if_neg h1]
    by_cases h2 : jsTruthy tH = true
    · rw [if_pos h2]
      cases tH with
      | none => simp [jsTruthy] at h2
      | some n =>
        have hn : n ≠ 0 := by simpa [jsTruthy] using h2
        simp only [Option.map_some']
        simp only [resizeOp]
        rw [if_neg (by exact_mod_cast by omega : ¬ ((n : Int) ≤ 0))]
        exact ⟨_, rfl⟩
    · rw [if_neg h2]
      exact ⟨_, rfl⟩

theorem processAll_err_head (rw rh : Option Int) (tW tH : Option Nat) (i : Nat)
    (s : SrcImage) (rest : List SrcImage)
    (he : processImage rw rh tW tH s = .error ()) :
    (processAll rw rh tW tH i (s :: rest)).1 = .error () := by
  simp only [processAll, he]

theorem processAll_ok_noExplicit (tW tH : Option Nat) :
    ∀ (i : Nat) (l : List SrcImage),
      ∃ ds, (processAll none none tW tH i l).1 = .ok ds := by
  intro i l
  induction l generalizing i with
  | nil => exact ⟨[], rfl⟩
  | cons s rest ih =>
    obtain ⟨d, hd⟩ := processImage_ok_noExplicit tW tH s
    obtain ⟨ds, hds⟩ := ih (i + 1)
    refine ⟨d :: ds, ?_⟩
    simp only [processAll, hd]
    rw [hds]
    rfl

theorem POST_empty (req : MergeRequest) (h : req.images = []) :
    POST req = (.error (.invalidInput "No images provided"), []) := by
  simp [POST, h]

theorem decode_zero_mem_pass1 (req : MergeRequest) (hne : req.images ≠ []) :
    CodecOp.decode 0 ∈ (List.range req.images.length).map CodecOp.decode := by
  refine List.mem_map.mpr ⟨0, ?_, rfl⟩
  refine List.mem_range.mpr ?_
  cases hl : req.images with
  | nil => exact absurd hl hne
  | cons a l => simp [hl]

theorem POST_processing_error (req : MergeRequest) (hne : req.images ≠ [])
    (herr : (processAll req.resizeWidth req.resizeHeight
        (alignTargets req.alignDimension (req.images.map rotatedDim)).1
        (alignTargets req.alignDimension (req.images.map rotatedDim)).2
        0 req.images).1 = .error ()) :
    (POST req).1 = .error .processingFailed ∧ CodecOp.decode 0 ∈ (POST req).2 := by
  have hlen : ¬ (req.images.length = 0) := by
    simpa [List.length_eq_zero] using hne
  have hmem := decode_zero_mem_pass1 req hne
  constructor
  · simp [POST, hlen, herr]
  · simp only [POST, hlen, if_false, ite_false, herr]
    simp [hmem]

theorem POST_create_error (req : MergeRequest) (hne : req.images ≠ [])
    (ds : List Dim)
    (hok : (processAll req.resizeWidth req.resizeHeight
        (alignTargets req.alignDimension (req.images.map rotatedDim)).1
        (alignTargets req.alignDimension (req.images.map rotatedDim)).2
        0 req.images).1 = .ok ds)
    (hbad : createCanvasOk
        (canvasSize req.alignmentMode (parseGridParam req.gridRowsField)
          (parseGridParam req.gridColsField) ds).1
        (canvasSize req.alignmentMode (parseGridParam req.gridRowsField)
          (parseGridParam req.gridColsField) ds).2 = false) :
    (POST req).1 = .error .processingFailed ∧ CodecOp.decode 0 ∈ (POST req).2 := by
  have hlen : ¬ (req.images.length = 0) := by
    simpa [List.length_eq_zero] using hne
  have hmem := decode_zero_mem_pass1 req hne
  constructor
  · simp [POST, hlen, hok, hbad]
  · simp only [POST, hlen, if_false, ite_false, hok, hbad]
    simp [hmem]

theorem parseGridParam_neg (v : Int) (hv : v < 0) : parseGridParam (some v) = v := by
  simp [parseGridParam, show v ≠ 0 from by omega]

theorem createCanvasOk_false_of_nonpos (w h : Int) (hbad : w ≤ 0 ∨ h ≤ 0) :
    createCanvasOk w h = false := by
  simp only [createCanvasOk]
  rcases hbad with hb | hb <;> simp [show ¬ (0 < w) ∨ ¬ (0 < h) from by omega] <;> omega

/-! ### Claim C7: empty-set rejection and canvas positivity -/

/-- C7: A request with an empty image set fails with the InvalidInput response
before any decoding, resizing, or canvas creation (the codec trace is empty);
and for every non-empty dimension list with positive dimensions, in each of the
three layout modes (grid with positive rows/cols per the `LayoutMode` data
model), the computed canvas width and height are positive. -/
theorem validation_spec (req : MergeRequest) (mode : String)
    (gridRows gridCols : Int) (dims : List Dim) :
    (req.images = [] → POST req = (.error (.invalidInput "No images provided"), [])) ∧
    (dims ≠ [] → (∀ d ∈ dims, 0 < d.width ∧ 0 < d.height) →
      (mode = "horizontal" ∨ mode = "vertical" ∨
        (mode = "grid" ∧ 0 < gridRows ∧ 0 < gridCols)) →
      0 < (canvasSize mode gridRows gridCols dims).1 ∧
      0 < (canvasSize mode gridRows gridCols dims).2) := by
  constructor
  · intro h
    exact POST_empty req h
  · intro hne hpos hmode
    obtain ⟨d0, hd0⟩ := List.exists_mem_of_ne_nil dims hne
    have hW : 0 < d0.width := (hpos d0 hd0).1
    have hH : 0 < d0.height := (hpos d0 hd0).2
    have hmaxW : 0 < maxList (dims.map Dim.width) :=
      Nat.lt_of_lt_of_le hW (le_maxList (List.mem_map_of_mem Dim.width hd0))
    have hmaxH : 0 < maxList (dims.map Dim.height) :=
      Nat.lt_of_lt_of_le hH (le_maxList (List.mem_map_of_mem Dim.height hd0))
    have hsumW : 0 < sumWidths dims :=
      Nat.lt_of_lt_of_le hW (mem_le_sumWidths hd0)
    have hsumH : 0 < sumHeights dims :=
      Nat.lt_of_lt_of_le hH (mem_le_sumHeights hd0)
    rcases hmode with h | h | ⟨h, hr, hc⟩
    · subst h
      rw [canvasSize_horizontal]
      constructor
      · dsimp only
        exact_mod_cast hsumW
      · dsimp only
        exact_mod_cast hmaxH
    · subst h
      rw [canvasSize_vertical]
      constructor
      · dsimp only
        exact_mod_cast hmaxW
      · dsimp only
        exact_mod_cast hsumH
    · subst h
      rw [canvasSize_grid]
      constructor
      · dsimp only
        exact mul_pos (by exact_mod_cast hmaxW) hc
      · dsimp only
        exact mul_pos (by exact_mod_cast hmaxH) hr

/-- C7 witness: a zero-image request yields the InvalidInput response with an
empty codec trace, and one 10×10 image in a 2×2 grid has a positive canvas. -/
theorem validation_spec_witness :
    POST ⟨"horizontal", none, none, none, none, "none", []⟩
        = (.error (.invalidInput "No images provided"), []) ∧
    (0 < (canvasSize "grid" 2 2 [⟨10, 10⟩]).1 ∧
     0 < (canvasSize "grid" 2 2 [⟨10, 10⟩]).2) :=
  ⟨(validation_spec ⟨"horizontal", none, none, none, none, "none", []⟩
      "grid" 2 2 [⟨10, 10⟩]).1 rfl,
   (validation_spec ⟨"horizontal", none, none, none, none, "none", []⟩
      "grid" 2 2 [⟨10, 10⟩]).2 (by decide) (by decide) (by decide)⟩

/-! ### Claim C8: non-positive resize or grid parameters -/

/-- C8 counterexample: the claim "non-positive resize dimensions or grid rows
≤ 0 fail immediately with InvalidInput and no processing" is false on the
code — grid rows parsing to 0 are silently replaced by 2 and the merge
SUCCEEDS, and an explicit resize width 0 fails only with the generic
processing error, after the image was decoded. -/
theorem invalid_params_cex :
    (POST ⟨"grid", some 0, some 2, none, none, "none", [⟨10, 10, false⟩]⟩).1
      = .ok ⟨20, 20, [(0, 0)]⟩ ∧
    (POST ⟨"horizontal", none, none, some 0, none, "none", [⟨10, 10, false⟩]⟩).1
      = .error .processingFailed ∧
    CodecOp.decode 0 ∈
      (POST ⟨"horizontal", none, none, some 0, none, "none", [⟨10, 10, false⟩]⟩).2 :=
  ⟨rfl, rfl, by decide⟩

/-- C8 (amended): a non-positive explicit resize dimension makes the merge fail
with the generic processing error (not InvalidInput) after the first image has
been decoded; in grid mode a negative parsed rows/cols value likewise fails
only at canvas creation with the generic processing error, after decoding
(rows/cols parsing to 0 are silently replaced by 2 instead, see the
counterexample). -/
theorem invalid_params_amended (req : MergeRequest) (hne : req.images ≠ []) :
    ((∃ w, req.resizeWidth = some w ∧ w ≤ 0) ∨
       (∃ h, req.resizeHeight = some h ∧ h ≤ 0) →
      (POST req).1 = .error .processingFailed ∧ CodecOp.decode 0 ∈ (POST req).2) ∧
    (req.alignmentMode = "grid" → req.resizeWidth = none → req.resizeHeight = none →
      ((∃ r, req.gridRowsField = some r ∧ r < 0) ∨
       (∃ c, req.gridColsField = some c ∧ c < 0)) →
      (POST req).1 = .error .processingFailed ∧ CodecOp.decode 0 ∈ (POST req).2) := by
  constructor
  · intro hbad
    obtain ⟨s, rest, hsr⟩ := List.exists_cons_of_ne_nil hne
    refine POST_processing_error req hne ?_
    rw [hsr]
    exact processAll_err_head _ _ _ _ 0 s rest (processImage_err _ _ _ _ s hbad)
  · intro hmode hrw hrh hbad
    obtain ⟨ds, hds⟩ := processAll_ok_noExplicit
      (alignTargets req.alignDimension (req.images.map rotatedDim)).1
      (alignTargets req.alignDimension (req.images.map rotatedDim)).2 0 req.images
    have hok : (processAll req.resizeWidth req.resizeHeight
        (alignTargets req.alignDimension (req.images.map rotatedDim)).1
        (alignTargets req.alignDimension (req.images.map rotatedDim)).2
        0 req.images).1 = .ok ds := by
      rw [hrw, hrh]; exact hds
    refine POST_create_error req hne ds hok ?_
    rw [hmode, canvasSize_grid]
    rcases hbad with ⟨r, hr, hrneg⟩ | ⟨c, hc, hcneg⟩
    · refine createCanvasOk_false_of_nonpos _ _ (Or.inr ?_)
      dsimp only
      rw [hr, parseGridParam_neg r hrneg]
      nlinarith [Int.natCast_nonneg (maxList (ds.map Dim.height))]
    · refine createCanvasOk_false_of_nonpos _ _ (Or.inl ?_)
      dsimp only
      rw [hc, parseGridParam_neg c hcneg]
      nlinarith [Int.natCast_nonneg (maxList (ds.map Dim.width))]

/-- C8 witness: a grid request with rows field parsing to −1 fails with the
generic processing error after decoding its image. -/
theorem invalid_params_amended_witness :
    (⟨"grid", some (-1), some 2, none, none, "none",
        [⟨10, 10, false⟩]⟩ : MergeRequest).images ≠ [] ∧
    ((POST ⟨"grid", some (-1), some 2, none, none, "none", [⟨10, 10, false⟩]⟩).1
        = .error .processingFailed ∧
     CodecOp.decode 0 ∈
       (POST ⟨"grid", some (-1), some 2, none, none, "none", [⟨10, 10, false⟩]⟩).2) :=
  ⟨by decide,
   (invalid_params_amended ⟨"grid", some (-1), some 2, none, none, "none",
       [⟨10, 10, false⟩]⟩ (by decide)).2 rfl rfl rfl (Or.inl ⟨-1, rfl, by decide⟩)⟩

/-! ### Claim C9: orientation normalization precedes every dimension read -/

theorem rotatedDim_normalize (s : SrcImage) :
    rotatedDim (normalizeSrc s) = rotatedDim s := by
  simp [normalizeSrc, rotatedDim]

theorem processImage_normalize (rw rh : Option Int) (tW tH : Option Nat)
    (s : SrcImage) :
    processImage rw rh tW tH (normalizeSrc s) = processImage rw rh tW tH s := by
  unfold processImage
  rw [rotatedDim_normalize]

theorem processAll_normalize (rw rh : Option Int) (tW tH : Option Nat) :
    ∀ (i : Nat) (l : List SrcImage),
      processAll rw rh tW tH i (l.map normalizeSrc) = processAll rw rh tW tH i l := by
  intro i l
  induction l generalizing i with
  | nil => rfl
  | cons s rest ih =>
    simp only [List.map_cons, processAll, processImage_normalize, ih (i + 1)]

theorem map_rotatedDim_normalize (l : List SrcImage) :
    (l.map normalizeSrc).map rotatedDim = l.map rotatedDim := by
  rw [List.map_map]
  exact List.map_congr_left (fun s _ => rotatedDim_normalize s)

/-- C9: The whole server pipeline depends on each source image only through
its post-rotation dimensions — replacing every source by its orientation-
normalized reading leaves the response and codec trace unchanged, so both the
alignment maximum and the layout engine read post-rotation dimensions.
Concretely, a single 30×20 image whose EXIF orientation swaps axes produces a
20×30 canvas. -/
theorem rotate_before_read (req : MergeRequest) :
    POST { req with images := req.images.map normalizeSrc } = POST req ∧
    (POST ⟨"horizontal", none, none, none, none, "none", [⟨30, 20, true⟩]⟩).1
      = .ok ⟨20, 30, [(0, 0)]⟩ := by
  constructor
  · simp only [POST, List.length_map, map_rotatedDim_normalize, processAll_normalize]
  · rfl

/-! ### Claim C10: grid parameter parsing -/

/-- C10: An absent or non-numeric gridRows/gridCols field (`parseInt` NaN) and
a field parsing to 0 are silently replaced by 2 — the request succeeds rather
than erroring (the concrete request below has no rows field and cols 1, and
merges a 5×7 image into a 5×14 canvas, rows having defaulted to 2) — while a
negative parsed value is used as-is. -/
theorem grid_param_default (v : Int) (hv : v < 0) :
    parseGridParam none = 2 ∧ parseGridParam (some 0) = 2 ∧
    parseGridParam (some v) = v ∧
    (POST ⟨"grid", none, some 1, none, none, "none", [⟨5, 7, false⟩]⟩).1
      = .ok ⟨5, 14, [(0, 0)]⟩ :=
  ⟨rfl, rfl, parseGridParam_neg v hv, rfl⟩

/-- C10 witness at the negative value −3. -/
theorem grid_param_default_witness :
    (-3 : Int) < 0 ∧
    (parseGridParam none = 2 ∧ parseGridParam (some 0) = 2 ∧
     parseGridParam (some (-3)) = -3 ∧
     (POST ⟨"grid", none, some 1, none, none, "none", [⟨5, 7, false⟩]⟩).1
       = .ok ⟨5, 14, [(0, 0)]⟩) :=
  ⟨by decide, grid_param_default (-3) (by decide)⟩

end Merger
